import Mathlib

set_option maxRecDepth 16384

/-!
Verification development for the meeting-scripts generator
(src/meeting_scripts_generator.py).

The program is a linear pipeline: read a notes file, call a remote model,
extract a code block from the reply, prepend a provenance header, and write
the result.  The string manipulation of the source (Python str.split,
str.strip, substring membership, the indentation-repair regex) is embedded
below over List Char.  The Python compile builtin, which decides whether a
string parses as a Python program, is abstracted as an oracle parameter
(parses : String -> Bool); filesystem reads and the remote call are
abstracted as explicit parameters of the entry point.
-/

/-- Common whitespace recognised by Python str.strip and by the regex
class backslash-s (ASCII range): space, tab, newline, carriage return,
vertical tab, form feed. -/
def isPySpace (c : Char) : Bool :=
  c = ' ' || c = '\t' || c = '\n' || c = '\r' || c = '\x0b' || c = '\x0c'

/-- Python str.strip on a character list: drop whitespace from both ends. -/
def stripL (l : List Char) : List Char :=
  ((l.dropWhile isPySpace).reverse.dropWhile isPySpace).reverse

/-- Python str.strip at the String level. -/
def pyStrip (s : String) : String := ⟨stripL s.data⟩

/-- Bool-valued list-prefix test (used to detect an occurrence of a
separator at the head of a list). -/
def leadsWith : List Char → List Char → Bool
  | [], _ => true
  | _ :: _, [] => false
  | a :: p, b :: l => a == b && leadsWith p l

/-- Index of the first occurrence of sep, scanning left to right
(Python str.find for a nonempty separator; none when absent). -/
def findSub (sep : List Char) : List Char → Option Nat
  | [] => none
  | c :: l => if leadsWith sep (c :: l) then some 0 else (findSub sep l).map (· + 1)

/-- Python substring membership (sub in s) for a nonempty sub. -/
def pyContainsL (sub l : List Char) : Bool := (findSub sub l).isSome

/-- Python substring membership at the String level. -/
def pyContains (s sub : String) : Bool := pyContainsL sub.data s.data

/-- Element 0 of Python s.split(sep): the text before the first occurrence
of sep, or all of s when sep does not occur. -/
def splitGet0 (sep l : List Char) : List Char :=
  l.take ((findSub sep l).getD l.length)

/-- Element 1 of Python s.split(sep): the text between the first occurrence
of sep and the next (non-overlapping) occurrence, or to the end of the
string.  none models the IndexError raised when sep does not occur. -/
def splitGet1 (sep l : List Char) : Option (List Char) :=
  match findSub sep l with
  | none => none
  | some i => some (splitGet0 sep (l.drop (i + sep.length)))

/-- The language-tagged opening fence of the source. -/
def fencePy : List Char := "```python".data

/-- The generic fence marker of the source. -/
def fence : List Char := "```".data

/-- MeetingScriptGenerator._extract_code_from_response (source lines
100-106).  Tagged branch: response_text.split on the tagged fence, element
1, then split on the generic fence, element 0, stripped.  Generic branch:
split on the generic fence, element 1, stripped.  Otherwise the whole
reply stripped.  none models an uncaught IndexError (shown impossible
below). -/
def _extract_code_from_response (t : String) : Option String :=
  if pyContainsL fencePy t.data then
    (splitGet1 fencePy t.data).map (fun seg => ⟨stripL (splitGet0 fence seg)⟩)
  else if pyContainsL fence t.data then
    (splitGet1 fence t.data).map (fun seg => ⟨stripL seg⟩)
  else
    some (pyStrip t)

/-- The fence-stripping step of _validate_python_code (source lines 61-64).
The guards ensure the split elements exist, so the getD defaults are never
used. -/
def stripFencesV (code : String) : String :=
  if pyContainsL fencePy code.data then
    ⟨stripL (splitGet0 fence ((splitGet1 fencePy code.data).getD []))⟩
  else if pyContainsL fence code.data then
    ⟨stripL ((splitGet1 fence code.data).getD [])⟩
  else code

/-- The two leading characters of an interpreter directive. -/
def shebangMark : List Char := "#!".data

/-- Shebang normalization of _validate_python_code (source lines 70-71). -/
def ensureShebang (code : String) : String :=
  if leadsWith shebangMark code.data then code
  else "#!/usr/bin/env python3\n\n" ++ code

/-- The text _validate_python_code submits to its first parse attempt
(source lines 61-71): fence stripping, then strip, then shebang
normalization. -/
def normalizeCode (code : String) : String :=
  ensureShebang (pyStrip (stripFencesV code))

/-- Python code.split(backslash-n): split at every newline. -/
def splitNl : List Char → List (List Char)
  | [] => [[]]
  | c :: l =>
    if c = '\n' then [] :: splitNl l
    else
      match splitNl l with
      | [] => [[c]]
      | h :: t => (c :: h) :: t

/-- Python newline.join: the inverse direction of splitNl. -/
def joinNl : List (List Char) → List Char
  | [] => []
  | [x] => x
  | x :: xs => x ++ '\n' :: joinNl xs

/-- One line of the indentation repair (source line 86): the regex
re.sub applied to a line rewrites a nonempty run of leading whitespace to
len-div-4-times-4 spaces and leaves the rest of the line unchanged. -/
def fixLineL (l : List Char) : List Char :=
  if (l.takeWhile isPySpace).isEmpty then l
  else List.replicate ((l.takeWhile isPySpace).length / 4 * 4) ' ' ++ l.dropWhile isPySpace

/-- The indentation repair of _validate_python_code (source lines 82-88):
split into lines, repair each line, rejoin with newlines. -/
def fixIndentation (code : String) : String :=
  ⟨joinNl ((splitNl code.data).map fixLineL)⟩

/-- The warning-banner fallback of _validate_python_code (source lines
93-98): shebang, two warning comment lines, a blank line, the code, and the
trailing newline of the triple-quoted literal. -/
def warningBanner (code : String) : String :=
  "#!/usr/bin/env python3\n# WARNING: Generated code contains syntax errors\n# Please review and fix the following code:\n\n"
    ++ code ++ "\n"

/-- MeetingScriptGenerator._validate_python_code (source lines 50-98),
with the Python compile builtin abstracted as the oracle parses. -/
def _validate_python_code (parses : String → Bool) (code : String) : String :=
  if parses (normalizeCode code) then normalizeCode code
  else if parses (fixIndentation (normalizeCode code)) then fixIndentation (normalizeCode code)
  else warningBanner (normalizeCode code)

/-- A Python dict of strings, as an association list (keys unique). -/
abbrev Dict := List (String × String)

/-- Python d[k] as an Option (first binding of the key). -/
def lookupDict (d : Dict) (k : String) : Option String :=
  match d.find? (fun p => p.1 == k) with
  | some p => some p.2
  | none => none

/-- Python (k in d). -/
def dictHasKey (d : Dict) (k : String) : Bool := (lookupDict d k).isSome

/-- The generation-info header of generate_script (source lines 149-154):
shebang, timestamp, model name (the literal Bard), source line, blank
line. -/
def headerStr (now : String) : String :=
  "#!/usr/bin/env python3\n# Generated on: " ++ now ++ "\n# Model: Bard\n# Source: Meeting notes\n\n"

/-- MeetingScriptGenerator.generate_script (source lines 108-161).  The
remote call is abstracted as its result: either a transport failure with a
message, or an optional response dict.  The except clause wraps every
failure message with the prefix of source line 161; the internal raise of
line 158 is caught by the same clause. -/
def generate_script (now : String) (call : Except String (Option Dict)) : Except String String :=
  match call with
  | .error m => .error ("Script generation failed: " ++ m)
  | .ok none => .error ("Script generation failed: No response generated from the model")
  | .ok (some d) =>
    if !d.isEmpty && dictHasKey d "content" then
      match _extract_code_from_response ((lookupDict d "content").getD "") with
      | some code => .ok (headerStr now ++ code)
      | none => .error ("Script generation failed: list index out of range")
    else .error ("Script generation failed: No response generated from the model")

/-- Outcome of reading a file path. -/
inductive ReadResult where
  | ok (content : String)
  | notFound
  | ioError (msg : String)

/-- The two error shapes raised by read_meeting_notes: the re-raised
FileNotFoundError, and the generic Exception wrapper. -/
inductive NotesError where
  | fileNotFound (msg : String)
  | readFailure (msg : String)

/-- MeetingScriptGenerator.read_meeting_notes (source lines 40-48), over an
abstract filesystem. -/
def read_meeting_notes (fs : String → ReadResult) (path : String) : Except NotesError String :=
  match fs path with
  | .ok c => .ok c
  | .notFound => .error (.fileNotFound ("Meeting notes file not found: " ++ path))
  | .ioError m => .error (.readFailure ("Error reading meeting notes: " ++ m))

/-- Parsed command-line arguments (source lines 177-193). -/
structure Args where
  input_file : String
  output : Option String
  api_key : Option String
  script_type : String

/-- Environment-derived configuration (BARD_API_KEY, OUTPUT_DIR). -/
structure Env where
  bard_api_key : Option String
  output_dir : Option String

/-- Python truthiness of an optional string (None and the empty string are
falsy). -/
def strTruthy : Option String → Bool
  | none => false
  | some s => !(s == "")

/-- MeetingScriptGenerator.__init__ key selection (source lines 28-32):
api_key or BARD_API_KEY, raising when the result is falsy. -/
def initGenerator (apiKeyArg envKey : Option String) : Except String String :=
  if strTruthy (if strTruthy apiKeyArg then apiKeyArg else envKey) then
    .ok ((if strTruthy apiKeyArg then apiKeyArg else envKey).getD "")
  else .error "Bard API key not provided. Set BARD_API_KEY in .env file or pass as argument"

/-- os.path.join for our two-component uses. -/
def pathJoin (d f : String) : String := if d == "" then f else d ++ "/" ++ f

/-- main (source lines 176-240).  Effects are explicit: fs is the
filesystem, call the remote-call result, now the header timestamp, ts the
filename timestamp, saveOk the outcome of the file write.  The value is
the return code of main together with the list of file writes performed
(path, contents); every handled failure returns 1 after writing nothing. -/
def main_run (args : Args) (env : Env) (fs : String → ReadResult)
    (call : Except String (Option Dict)) (now ts : String) (saveOk : Bool) :
    Nat × List (String × String) :=
  match initGenerator args.api_key env.bard_api_key with
  | .error _ => (1, [])
  | .ok _ =>
    match read_meeting_notes fs args.input_file with
    | .error _ => (1, [])
    | .ok _ =>
      match generate_script now call with
      | .error _ => (1, [])
      | .ok script =>
        if saveOk then
          (0, [(if strTruthy args.output then args.output.getD ""
                else pathJoin (env.output_dir.getD "output_scripts")
                  ("generated_script_" ++ ts ++ ".py"), script)])
        else (1, [])

/-- The module guard of source lines 242-243: it invokes main and discards
the returned value, so the interpreter process exits with status 0 whenever
main returns normally. -/
def process_exit (args : Args) (env : Env) (fs : String → ReadResult)
    (call : Except String (Option Dict)) (now ts : String) (saveOk : Bool) : Nat :=
  (fun _ => 0) (main_run args env fs call now ts saveOk)

/-! ### Basic facts about the string primitives -/

theorem findSub_nil (sep : List Char) : findSub sep [] = none := rfl

theorem findSub_cons (sep : List Char) (c : Char) (l : List Char) :
    findSub sep (c :: l) =
      if leadsWith sep (c :: l) then some 0 else (findSub sep l).map (· + 1) := rfl

theorem leadsWith_self_append (p m : List Char) : leadsWith p (p ++ m) = true := by
  induction p with
  | nil => rfl
  | cons a p ih => simp [leadsWith, ih]

theorem leadsWith_append_left (s t l : List Char)
    (h : leadsWith (s ++ t) l = true) : leadsWith s l = true := by
  induction s generalizing l with
  | nil => rfl
  | cons a s ih =>
    cases l with
    | nil => simp [leadsWith] at h
    | cons b l =>
      simp only [List.cons_append, leadsWith, Bool.and_eq_true, beq_iff_eq] at h ⊢
      exact ⟨h.1, ih l h.2⟩

theorem leadsWith_guard {sep : List Char} {c : Char} {u w : List Char} (hc : c ∉ sep)
    (h : leadsWith sep (u ++ c :: w) = true) : leadsWith sep u = true := by
  induction u generalizing sep with
  | nil =>
    cases sep with
    | nil => rfl
    | cons a s =>
      simp only [List.nil_append, leadsWith, Bool.and_eq_true, beq_iff_eq] at h
      exact absurd (by rw [h.1]; exact List.mem_cons_self c s) hc
  | cons b u ih =>
    cases sep with
    | nil => rfl
    | cons a s =>
      simp only [List.cons_append, leadsWith, Bool.and_eq_true, beq_iff_eq] at h ⊢
      refine ⟨h.1, ih (fun hm => hc (List.mem_cons_of_mem a hm)) h.2⟩

theorem findSub_of_no_sub {sep l : List Char} (h : pyContainsL sep l = false) :
    findSub sep l = none := by
  unfold pyContainsL at h
  cases hf : findSub sep l with
  | none => rfl
  | some i => rw [hf] at h; simp at h

theorem no_sub_of_findSub {sep l : List Char} (h : findSub sep l = none) :
    pyContainsL sep l = false := by
  unfold pyContainsL
  rw [h]
  rfl

theorem findSub_cons_not {sep : List Char} {c : Char} {l : List Char}
    (h : leadsWith sep (c :: l) = false) :
    findSub sep (c :: l) = (findSub sep l).map (· + 1) := by
  rw [findSub_cons, h]
  rfl

theorem findSub_self_append (sep m : List Char) (hsep : sep ≠ []) :
    findSub sep (sep ++ m) = some 0 := by
  cases sep with
  | nil => exact absurd rfl hsep
  | cons a s =>
    rw [List.cons_append, findSub_cons]
    have h := leadsWith_self_append (a :: s) m
    rw [List.cons_append] at h
    rw [h]
    rfl

theorem findSub_append_guard {sep : List Char} {c : Char} (x y : List Char)
    (hc : c ∉ sep) (hx : findSub sep x = none) :
    findSub sep (x ++ c :: y) = (findSub sep (c :: y)).map (· + x.length) := by
  induction x with
  | nil =>
    simp only [List.nil_append, List.length_nil]
    cases findSub sep (c :: y) <;> rfl
  | cons b x ih =>
    rw [findSub_cons] at hx
    cases h1 : leadsWith sep (b :: x) with
    | true => rw [h1] at hx; simp at hx
    | false =>
      rw [h1] at hx
      simp only [if_false, Bool.false_eq_true, Option.map_eq_none'] at hx
      have h2 : leadsWith sep (b :: (x ++ c :: y)) = false := by
        cases h2 : leadsWith sep (b :: (x ++ c :: y)) with
        | false => rfl
        | true =>
          have h3 : leadsWith sep ((b :: x) ++ c :: y) = true := by
            rw [List.cons_append]; exact h2
          rw [leadsWith_guard hc h3] at h1
          cases h1
      rw [List.cons_append, findSub_cons, h2]
      simp only [if_false, Bool.false_eq_true]
      rw [ih hx]
      cases findSub sep (c :: y) with
      | none => rfl
      | some v => simp only [Option.map_some', List.length_cons, Nat.add_assoc]

theorem findSub_extend_none {s t l : List Char} (h : findSub s l = none) :
    findSub (s ++ t) l = none := by
  induction l with
  | nil => rfl
  | cons c l ih =>
    rw [findSub_cons] at h ⊢
    cases h1 : leadsWith s (c :: l) with
    | true => rw [h1] at h; simp at h
    | false =>
      rw [h1] at h
      simp only [if_false, Bool.false_eq_true, Option.map_eq_none'] at h
      have h2 : leadsWith (s ++ t) (c :: l) = false := by
        cases h2 : leadsWith (s ++ t) (c :: l) with
        | false => rfl
        | true => rw [leadsWith_append_left s t _ h2] at h1; cases h1
      rw [h2]
      simp [ih h]

theorem leadsWith_take {sep : List Char} {k : Nat} (l : List Char) (hk : sep.length ≤ k) :
    leadsWith sep (l.take k) = leadsWith sep l := by
  induction sep generalizing l k with
  | nil => rfl
  | cons a s ih =>
    cases l with
    | nil => simp [List.take_nil]
    | cons b l =>
      cases k with
      | zero => simp at hk
      | succ k =>
        rw [List.take_succ_cons]
        simp only [leadsWith]
        rw [ih l (Nat.le_of_succ_le_succ hk)]

theorem findSub_take {sep l : List Char} {j k : Nat} (hsep : sep ≠ [])
    (h : findSub sep l = some j) (hk : j + sep.length ≤ k) :
    findSub sep (l.take k) = some j := by
  induction l generalizing j k with
  | nil => rw [findSub_nil] at h; cases h
  | cons c l ih =>
    have hslen : sep.length ≠ 0 := by
      cases sep with
      | nil => exact absurd rfl hsep
      | cons a s => simp
    cases k with
    | zero => omega
    | succ k =>
      rw [List.take_succ_cons]
      rw [findSub_cons] at h
      have htk : leadsWith sep (c :: l.take k) = leadsWith sep (c :: l) := by
        have h5 : sep.length ≤ k + 1 := by omega
        have := leadsWith_take (c :: l) h5
        rw [List.take_succ_cons] at this
        exact this
      cases h1 : leadsWith sep (c :: l) with
      | true =>
        rw [h1] at h
        simp only [if_true] at h
        rw [findSub_cons, htk, h1]
        simpa using h
      | false =>
        rw [h1] at h
        simp only [if_false, Bool.false_eq_true] at h
        obtain ⟨j0, hj0, hj⟩ : ∃ j0, findSub sep l = some j0 ∧ j0 + 1 = j := by
          cases hf : findSub sep l with
          | none => rw [hf] at h; cases h
          | some j0 => rw [hf] at h; simp at h; exact ⟨j0, rfl, h⟩
        rw [findSub_cons, htk, h1]
        simp only [if_false, Bool.false_eq_true]
        rw [ih hj0 (by omega)]
        simp [hj]

/-- sep occurs in l starting at index i. -/
def occursAt (sep l : List Char) (i : Nat) : Prop := leadsWith sep (l.drop i) = true

/-- findSub returns the index of an occurrence, and no smaller index is an
occurrence: it is the first occurrence. -/
theorem findSub_first {sep l : List Char} {i : Nat} (h : findSub sep l = some i) :
    occursAt sep l i ∧ ∀ i2, i2 < i → ¬ occursAt sep l i2 := by
  induction l generalizing i with
  | nil => rw [findSub_nil] at h; cases h
  | cons c l ih =>
    rw [findSub_cons] at h
    cases h1 : leadsWith sep (c :: l) with
    | true =>
      rw [h1] at h
      simp only [if_true] at h
      obtain rfl : i = 0 := by simpa using h.symm
      exact ⟨h1, by omega⟩
    | false =>
      rw [h1] at h
      simp only [if_false, Bool.false_eq_true] at h
      obtain ⟨i0, hi0, hi⟩ : ∃ i0, findSub sep l = some i0 ∧ i0 + 1 = i := by
        cases hf : findSub sep l with
        | none => rw [hf] at h; cases h
        | some i0 => rw [hf] at h; simp at h; exact ⟨i0, rfl, h⟩
      obtain ⟨ha, hb⟩ := ih hi0
      subst hi
      constructor
      · exact ha
      · intro i2 hlt
        cases i2 with
        | zero =>
          unfold occursAt
          simp [h1]
        | succ i2 => exact hb i2 (by omega)

/-- When findSub finds nothing, there is no occurrence anywhere (for a
nonempty separator). -/
theorem findSub_none_no_occurrence {sep l : List Char} (hsep : sep ≠ [])
    (h : findSub sep l = none) : ∀ i, ¬ occursAt sep l i := by
  induction l with
  | nil =>
    intro i
    unfold occursAt
    cases sep with
    | nil => exact absurd rfl hsep
    | cons a s => simp [List.drop_nil, leadsWith]
  | cons c l ih =>
    rw [findSub_cons] at h
    cases h1 : leadsWith sep (c :: l) with
    | true => rw [h1] at h; simp at h
    | false =>
      rw [h1] at h
      simp only [if_false, Bool.false_eq_true, Option.map_eq_none'] at h
      intro i
      cases i with
      | zero => unfold occursAt; simp [h1]
      | succ i => exact ih h i

/-! ### Facts about str.strip -/

theorem stripL_cons_space {c : Char} (hc : isPySpace c = true) (l : List Char) :
    stripL (c :: l) = stripL l := by
  unfold stripL
  rw [List.dropWhile_cons, hc]
  simp

theorem stripL_append_space {c : Char} (hc : isPySpace c = true) (l : List Char) :
    stripL (l ++ [c]) = stripL l := by
  induction l with
  | nil =>
    unfold stripL
    simp [List.dropWhile_cons, hc]
  | cons a l ih =>
    cases ha : isPySpace a with
    | true =>
      rw [List.cons_append, stripL_cons_space ha, ih, stripL_cons_space ha]
    | false =>
      unfold stripL
      rw [List.cons_append, List.dropWhile_cons, ha, List.dropWhile_cons, ha]
      simp only [Bool.false_eq_true, if_false]
      rw [List.reverse_cons, List.reverse_cons, List.reverse_append]
      simp only [List.reverse_cons, List.reverse_nil, List.nil_append, List.singleton_append]
      rw [List.cons_append, List.dropWhile_cons, hc]
      simp

/-! ### takeWhile and dropWhile on a maximal whitespace decomposition -/

theorem takeWhile_dropWhile_decomp {w r : List Char}
    (hw : ∀ c ∈ w, isPySpace c = true)
    (hr : ∀ c, r.head? = some c → isPySpace c = false) :
    (w ++ r).takeWhile isPySpace = w ∧ (w ++ r).dropWhile isPySpace = r := by
  induction w with
  | nil =>
    cases r with
    | nil => simp
    | cons c r =>
      have := hr c rfl
      simp [List.takeWhile_cons, List.dropWhile_cons, this]
  | cons a w ih =>
    have ha := hw a (List.mem_cons_self a w)
    have hih := ih (fun c hc => hw c (List.mem_cons_of_mem a hc))
    simp only [List.cons_append, List.takeWhile_cons, List.dropWhile_cons, ha]
    simp [hih.1, hih.2]

/-! ### String-level plumbing -/

theorem data_append (a b : String) : (a ++ b).data = a.data ++ b.data := by
  cases a with
  | mk x =>
    cases b with
    | mk y => rfl

theorem str_append_assoc (a b c : String) : (a ++ b) ++ c = a ++ (b ++ c) := by
  cases a with
  | mk x =>
    cases b with
    | mk y =>
      cases c with
      | mk z =>
        show String.mk ((x ++ y) ++ z) = String.mk (x ++ (y ++ z))
        rw [List.append_assoc]

theorem leadsWith_of_ne_head {sep : List Char} {c : Char} (m : List Char)
    (hs : sep ≠ []) (h : sep.head? ≠ some c) : leadsWith sep (c :: m) = false := by
  cases sep with
  | nil => exact absurd rfl hs
  | cons a p =>
    have hne : (a == c) = false := by
      cases hac : a == c with
      | false => rfl
      | true =>
        rw [show a = c from by exact beq_iff_eq.mp hac] at h
        exact absurd rfl h
    simp [leadsWith, hne]

theorem splitGet0_of_none {sep l : List Char} (h : findSub sep l = none) :
    splitGet0 sep l = l := by
  unfold splitGet0
  rw [h]
  simp [List.take_length]

theorem splitGet0_of_some {sep l : List Char} {j : Nat} (h : findSub sep l = some j) :
    splitGet0 sep l = l.take j := by
  unfold splitGet0
  rw [h]
  rfl

/-! ### Behaviour of the extraction function -/

theorem extract_no_fence {t : String} (h : pyContainsL fence t.data = false) :
    _extract_code_from_response t = some (pyStrip t) := by
  have h2 : pyContainsL fencePy t.data = false := by
    apply no_sub_of_findSub
    have h3 := findSub_extend_none (t := "python".data) (findSub_of_no_sub h)
    rwa [show fence ++ "python".data = fencePy from by decide] at h3
  unfold _extract_code_from_response
  rw [h2, h]
  simp

theorem extract_tagged {t : String} {i : Nat} (hi : findSub fencePy t.data = some i) :
    _extract_code_from_response t =
      some ⟨stripL (splitGet0 fence (splitGet0 fencePy (t.data.drop (i + fencePy.length))))⟩ := by
  have hc : pyContainsL fencePy t.data = true := by unfold pyContainsL; rw [hi]; rfl
  unfold _extract_code_from_response
  rw [hc]
  simp only [if_true]
  unfold splitGet1
  rw [hi]
  rfl

theorem extract_generic {t : String} {i : Nat}
    (hnp : pyContainsL fencePy t.data = false)
    (hi : findSub fence t.data = some i) :
    _extract_code_from_response t =
      some ⟨stripL (splitGet0 fence (t.data.drop (i + fence.length)))⟩ := by
  have hc : pyContainsL fence t.data = true := by unfold pyContainsL; rw [hi]; rfl
  unfold _extract_code_from_response
  rw [hnp, hc]
  simp only [Bool.false_eq_true, if_false, if_true]
  unfold splitGet1
  rw [hi]
  rfl

theorem extract_total (t : String) : (_extract_code_from_response t).isSome = true := by
  unfold _extract_code_from_response
  cases h1 : pyContainsL fencePy t.data with
  | true =>
    simp only [if_true]
    unfold pyContainsL at h1
    cases hf : findSub fencePy t.data with
    | none => rw [hf] at h1; cases h1
    | some i =>
      unfold splitGet1
      rw [hf]
      rfl
  | false =>
    cases h2 : pyContainsL fence t.data with
    | true =>
      simp only [Bool.false_eq_true, if_false, if_true]
      unfold pyContainsL at h2
      cases hf : findSub fence t.data with
      | none => rw [hf] at h2; cases h2
      | some i =>
        unfold splitGet1
        rw [hf]
        rfl
    | false =>
      simp [h1, h2]

/-! ### The fenced-block reply shape -/

theorem findSub_fence_rest (b : List Char) (hb : findSub fence b = none) :
    findSub fence ('\n' :: (b ++ '\n' :: fence)) = some (b.length + 2) := by
  have hlw : leadsWith fence ('\n' :: b) = false :=
    leadsWith_of_ne_head b (by decide) (by decide)
  have h1 : findSub fence ('\n' :: b) = none := by
    rw [findSub_cons_not hlw, hb]
    rfl
  have h2 := findSub_append_guard ('\n' :: b) fence (c := '\n') (by decide) h1
  rw [List.cons_append] at h2
  rw [h2, show findSub fence ('\n' :: fence) = some 1 from by decide]
  simp only [Option.map_some', List.length_cons]
  congr 1
  omega

theorem findSub_fencePy_rest (b : List Char) (hb : findSub fence b = none) :
    findSub fencePy ('\n' :: (b ++ '\n' :: fence)) = none := by
  have hbp : findSub fencePy b = none := by
    have h3 := findSub_extend_none (t := "python".data) hb
    rwa [show fence ++ "python".data = fencePy from by decide] at h3
  have hlw : leadsWith fencePy ('\n' :: b) = false :=
    leadsWith_of_ne_head b (by decide) (by decide)
  have h1 : findSub fencePy ('\n' :: b) = none := by
    rw [findSub_cons_not hlw, hbp]
    rfl
  have h2 := findSub_append_guard ('\n' :: b) fence (c := '\n') (by decide) h1
  rw [List.cons_append] at h2
  rw [h2, show findSub fencePy ('\n' :: fence) = none from by decide]
  rfl

theorem take_fenced_body (b : List Char) :
    ('\n' :: (b ++ '\n' :: fence)).take (b.length + 2) = '\n' :: (b ++ ['\n']) := by
  have hlen : ('\n' :: (b ++ ['\n'])).length = b.length + 2 := by simp
  have hsplit : ('\n' :: (b ++ '\n' :: fence)) = ('\n' :: (b ++ ['\n'])) ++ fence := by
    simp [List.append_assoc]
  rw [hsplit, List.take_left' hlen]

theorem strip_fenced_body (b : List Char) :
    stripL ('\n' :: (b ++ ['\n'])) = stripL b := by
  rw [stripL_cons_space (by decide), stripL_append_space (by decide)]

/-- A reply that is exactly a language-tagged fenced block around a body
free of fence markers extracts to the stripped body. -/
theorem extract_fenced_block (b : String) (hb : pyContainsL fence b.data = false) :
    _extract_code_from_response ("```python\n" ++ b ++ "\n```") = some (pyStrip b) := by
  have hfb : findSub fence b.data = none := findSub_of_no_sub hb
  have hdata : ("```python\n" ++ b ++ "\n```").data
      = fencePy ++ ('\n' :: (b.data ++ '\n' :: fence)) := by
    rw [data_append, data_append]
    rw [show ("```python\n" : String).data = fencePy ++ ['\n'] from by decide]
    rw [show ("\n```" : String).data = '\n' :: fence from by decide]
    simp [List.append_assoc]
  have hi : findSub fencePy ("```python\n" ++ b ++ "\n```").data = some 0 := by
    rw [hdata]
    exact findSub_self_append _ _ (by decide)
  rw [extract_tagged hi, hdata]
  rw [Nat.zero_add, List.drop_left]
  rw [splitGet0_of_none (findSub_fencePy_rest b.data hfb)]
  rw [splitGet0_of_some (findSub_fence_rest b.data hfb)]
  rw [take_fenced_body, strip_fenced_body]
  rfl

/-- A reply that is exactly a generic fenced block around a body free of
fence markers extracts to the stripped body. -/
theorem extract_fenced_generic (b : String) (hb : pyContainsL fence b.data = false) :
    _extract_code_from_response ("```\n" ++ b ++ "\n```") = some (pyStrip b) := by
  have hfb : findSub fence b.data = none := findSub_of_no_sub hb
  have hdata : ("```\n" ++ b ++ "\n```").data
      = fence ++ ('\n' :: (b.data ++ '\n' :: fence)) := by
    rw [data_append, data_append]
    rw [show ("```\n" : String).data = fence ++ ['\n'] from by decide]
    rw [show ("\n```" : String).data = '\n' :: fence from by decide]
    simp [List.append_assoc]
  have hnp : pyContainsL fencePy ("```\n" ++ b ++ "\n```").data = false := by
    apply no_sub_of_findSub
    rw [hdata]
    have h1 : findSub fencePy fence = none := by decide
    have h2 := findSub_append_guard fence (b.data ++ '\n' :: fence) (c := '\n') (by decide) h1
    rw [h2, findSub_fencePy_rest b.data hfb]
    rfl
  have hi : findSub fence ("```\n" ++ b ++ "\n```").data = some 0 := by
    rw [hdata]
    exact findSub_self_append _ _ (by decide)
  rw [extract_generic hnp hi, hdata]
  rw [Nat.zero_add, List.drop_left]
  rw [splitGet0_of_some (findSub_fence_rest b.data hfb)]
  rw [take_fenced_body, strip_fenced_body]
  rfl

/-! ### Behaviour of generate_script -/

theorem generate_script_content {now : String} {d : Dict} {r c : String}
    (hd : d ≠ []) (hr : lookupDict d "content" = some r)
    (hc : _extract_code_from_response r = some c) :
    generate_script now (.ok (some d)) = .ok (headerStr now ++ c) := by
  unfold generate_script
  have h1 : d.isEmpty = false := by
    cases d with
    | nil => exact absurd rfl hd
    | cons p d => rfl
  have h2 : dictHasKey d "content" = true := by unfold dictHasKey; rw [hr]; rfl
  simp only [h1, h2, Bool.not_false, Bool.and_self, if_true]
  rw [hr]
  simp only [Option.getD_some]
  rw [hc]

/-! ### Claim theorems -/

/-- C1 (code bug): the claim says every accepted reply is parsed before the
final script is produced, with repair and banner fallback, so the body is
parseable or bannered.  The code never calls _validate_python_code: at the
reply content "def f(:" (not valid Python), generate_script returns the
header plus the raw extracted text, the result carries no warning banner,
and it differs from what the pipeline would return if it applied the
validation step (shown for an oracle on which both parse attempts fail,
matching the Python compile behaviour on this input and its repair). -/
theorem c1_no_validation_performed :
    generate_script "2024-01-01 12:00:00" (.ok (some [("content", "def f(:")])) =
      .ok ("#!/usr/bin/env python3\n# Generated on: 2024-01-01 12:00:00\n# Model: Bard\n# Source: Meeting notes\n\ndef f(:")
    ∧ pyContains
        "#!/usr/bin/env python3\n# Generated on: 2024-01-01 12:00:00\n# Model: Bard\n# Source: Meeting notes\n\ndef f(:"
        "# WARNING: Generated code contains syntax errors" = false
    ∧ _validate_python_code (fun _ => false) "def f(:" = warningBanner (normalizeCode "def f(:")
    ∧ ("#!/usr/bin/env python3\n# Generated on: 2024-01-01 12:00:00\n# Model: Bard\n# Source: Meeting notes\n\ndef f(:" : String)
        ≠ headerStr "2024-01-01 12:00:00" ++ _validate_python_code (fun _ => false) "def f(:" := by
  refine ⟨rfl, by decide, by decide, by decide⟩

/-- C2 (code bug): the claim says the process exits with status 0 on
success and 1 on handled failure.  main does return 1 on the handled
failure (missing notes file) and 0 on success, but the module guard
discards the returned value, so the modelled process exit status is 0 in
both scenarios. -/
theorem c2_exit_status :
    main_run ⟨"missing.txt", none, some "key", "script"⟩ ⟨some "key", none⟩
        (fun _ => .notFound) (.error "network error") "2024-01-01 12:00:00" "20240101_120000" true
      = (1, [])
    ∧ process_exit ⟨"missing.txt", none, some "key", "script"⟩ ⟨some "key", none⟩
        (fun _ => .notFound) (.error "network error") "2024-01-01 12:00:00" "20240101_120000" true
      = 0
    ∧ main_run ⟨"notes.txt", none, some "key", "script"⟩ ⟨some "key", none⟩
        (fun _ => .ok "notes") (.ok (some [("content", "print(1)")])) "2024-01-01 12:00:00" "20240101_120000" true
      = (0, [("output_scripts/generated_script_20240101_120000.py",
              "#!/usr/bin/env python3\n# Generated on: 2024-01-01 12:00:00\n# Model: Bard\n# Source: Meeting notes\n\nprint(1)")])
    ∧ process_exit ⟨"notes.txt", none, some "key", "script"⟩ ⟨some "key", none⟩
        (fun _ => .ok "notes") (.ok (some [("content", "print(1)")])) "2024-01-01 12:00:00" "20240101_120000" true
      = 0 := by
  refine ⟨rfl, rfl, rfl, rfl⟩

/-- C3 counterexample: at the end-to-end input the final script begins
with the shebang line, and the provenance comment recording the timestamp
is only the second line, refuting the claimed order (provenance comment
block first, shebang after it). -/
theorem c3_counterexample :
    generate_script "2024-01-01 12:00:00"
        (.ok (some [("content", "```python\nprint(\"hello world\")\n```")])) =
      .ok "#!/usr/bin/env python3\n# Generated on: 2024-01-01 12:00:00\n# Model: Bard\n# Source: Meeting notes\n\nprint(\"hello world\")"
    ∧ leadsWith shebangMark
        ("#!/usr/bin/env python3\n# Generated on: 2024-01-01 12:00:00\n# Model: Bard\n# Source: Meeting notes\n\nprint(\"hello world\")" : String).data = true
    ∧ (splitNl ("#!/usr/bin/env python3\n# Generated on: 2024-01-01 12:00:00\n# Model: Bard\n# Source: Meeting notes\n\nprint(\"hello world\")" : String).data).head?
        = some ("#!/usr/bin/env python3" : String).data
    ∧ (splitNl ("#!/usr/bin/env python3\n# Generated on: 2024-01-01 12:00:00\n# Model: Bard\n# Source: Meeting notes\n\nprint(\"hello world\")" : String).data).get? 1
        = some ("# Generated on: 2024-01-01 12:00:00" : String).data := by
  refine ⟨rfl, by decide, by decide, by decide⟩

/-- C3 (amended): for every successful generation the final script text
begins with the shebang line, then the provenance comment lines recording
the generation timestamp, the model name, and the literal string Meeting
notes as the source, then a blank line, and only then the code body; in
the end-to-end scenario the output begins with the shebang, then the
provenance comments, then a blank line, then the print statement. -/
theorem c3_amended_header_layout :
    (∀ (now : String) (d : Dict) (r c : String), d ≠ [] →
      lookupDict d "content" = some r →
      _extract_code_from_response r = some c →
      generate_script now (.ok (some d)) =
        .ok (("#!/usr/bin/env python3\n# Generated on: " ++ now
          ++ "\n# Model: Bard\n# Source: Meeting notes\n\n") ++ c))
    ∧ generate_script "2024-01-01 12:00:00"
        (.ok (some [("content", "```python\nprint(\"hello world\")\n```")])) =
      .ok "#!/usr/bin/env python3\n# Generated on: 2024-01-01 12:00:00\n# Model: Bard\n# Source: Meeting notes\n\nprint(\"hello world\")" := by
  constructor
  · intro now d r c hd hr hc
    exact generate_script_content hd hr hc
  · rfl

/-- Witness for the amended C3 theorem at a concrete input. -/
theorem c3_amended_header_layout_witness :
    ([("content", "print(1)")] : Dict) ≠ []
    ∧ lookupDict [("content", "print(1)")] "content" = some "print(1)"
    ∧ _extract_code_from_response "print(1)" = some "print(1)"
    ∧ generate_script "T" (.ok (some [("content", "print(1)")])) =
        .ok (("#!/usr/bin/env python3\n# Generated on: " ++ "T"
          ++ "\n# Model: Bard\n# Source: Meeting notes\n\n") ++ "print(1)") :=
  ⟨by decide, rfl, rfl,
   c3_amended_header_layout.1 "T" [("content", "print(1)")] "print(1)" "print(1)"
     (by decide) rfl rfl⟩

/-- C4 counterexample: a reply whose content field is present but empty is
not rejected; generate_script returns a script record consisting of the
header alone, although the claim requires a generation failure for an
empty content field. -/
theorem c4_counterexample_empty_content :
    generate_script "2024-01-01 12:00:00" (.ok (some [("content", "")])) =
      .ok (headerStr "2024-01-01 12:00:00") := by
  rfl

/-- C4 (amended): generate_script signals a generation failure preserving
the underlying message for transport failures and for replies that are
falsy (none or an empty dict) or lack a content field; a reply whose
content field is present is accepted, even when the content is empty, and
yields a script record. -/
theorem c4_amended_failure_conditions (now : String) :
    (∀ m, generate_script now (.error m) = .error ("Script generation failed: " ++ m))
    ∧ generate_script now (.ok none) =
        .error ("Script generation failed: No response generated from the model")
    ∧ generate_script now (.ok (some ([] : Dict))) =
        .error ("Script generation failed: No response generated from the model")
    ∧ (∀ d : Dict, lookupDict d "content" = none →
        generate_script now (.ok (some d)) =
          .error ("Script generation failed: No response generated from the model"))
    ∧ (∀ (d : Dict) (r : String), d ≠ [] → lookupDict d "content" = some r →
        ∃ c, _extract_code_from_response r = some c ∧
          generate_script now (.ok (some d)) = .ok (headerStr now ++ c)) := by
  refine ⟨fun m => rfl, rfl, rfl, ?_, ?_⟩
  · intro d hnone
    unfold generate_script
    have h2 : dictHasKey d "content" = false := by
      unfold dictHasKey
      rw [hnone]
      rfl
    simp [h2]
  · intro d r hd hr
    obtain ⟨c, hc⟩ : ∃ c, _extract_code_from_response r = some c := by
      have ht := extract_total r
      cases h : _extract_code_from_response r with
      | none => rw [h] at ht; cases ht
      | some c => exact ⟨c, rfl⟩
    exact ⟨c, hc, generate_script_content hd hr hc⟩

/-- Witness for the amended C4 theorem at concrete inputs. -/
theorem c4_amended_failure_conditions_witness :
    generate_script "T" (.error "network down") =
      .error ("Script generation failed: " ++ "network down")
    ∧ lookupDict [("other", "x")] "content" = none
    ∧ generate_script "T" (.ok (some [("other", "x")])) =
        .error ("Script generation failed: No response generated from the model")
    ∧ ([("content", "hi")] : Dict) ≠ []
    ∧ lookupDict [("content", "hi")] "content" = some "hi"
    ∧ (∃ c, _extract_code_from_response "hi" = some c ∧
        generate_script "T" (.ok (some [("content", "hi")])) = .ok (headerStr "T" ++ c)) :=
  ⟨(c4_amended_failure_conditions "T").1 "network down", rfl,
   (c4_amended_failure_conditions "T").2.2.2.1 [("other", "x")] rfl,
   by decide, rfl,
   (c4_amended_failure_conditions "T").2.2.2.2 [("content", "hi")] "hi" (by decide) rfl⟩

/-- C5: for every reply consisting of a fenced block (language-tagged or
generic) surrounding parseable code free of fence markers, the final
script produced by generate_script is exactly the provenance header
followed by the trimmed block content, so the body obtained by stripping
the header is byte-identical to the trimmed block content. -/
theorem c5_round_trip (parses : String → Bool) (now b : String)
    (hb : pyContainsL fence b.data = false)
    (_hp : parses (pyStrip b) = true) :
    generate_script now (.ok (some [("content", "```python\n" ++ b ++ "\n```")])) =
      .ok (headerStr now ++ pyStrip b)
    ∧ generate_script now (.ok (some [("content", "```\n" ++ b ++ "\n```")])) =
      .ok (headerStr now ++ pyStrip b) :=
  ⟨generate_script_content (by simp) rfl (extract_fenced_block b hb),
   generate_script_content (by simp) rfl (extract_fenced_generic b hb)⟩

/-- Witness for the C5 theorem at a concrete input. -/
theorem c5_round_trip_witness :
    pyContainsL fence ("print(\"hello world\")" : String).data = false
    ∧ (fun _ => true : String → Bool) (pyStrip "print(\"hello world\")") = true
    ∧ (generate_script "2024-01-01 12:00:00"
          (.ok (some [("content", "```python\nprint(\"hello world\")\n```")])) =
        .ok (headerStr "2024-01-01 12:00:00" ++ pyStrip "print(\"hello world\")")
      ∧ generate_script "2024-01-01 12:00:00"
          (.ok (some [("content", "```\nprint(\"hello world\")\n```")])) =
        .ok (headerStr "2024-01-01 12:00:00" ++ pyStrip "print(\"hello world\")")) :=
  ⟨by decide, rfl,
   c5_round_trip (fun _ => true) "2024-01-01 12:00:00" "print(\"hello world\")" (by decide) rfl⟩

/-- C6: for every input whose pre-repair text fails to parse and whose
repaired text also fails to parse, _validate_python_code returns exactly a
shebang line, the two-line warning comment, a blank line, and the
pre-repair (unrepaired) text verbatim, followed by the trailing newline of
the literal. -/
theorem c6_fallback_banner (parses : String → Bool) (code : String)
    (h1 : parses (normalizeCode code) = false)
    (h2 : parses (fixIndentation (normalizeCode code)) = false) :
    _validate_python_code parses code =
      "#!/usr/bin/env python3\n# WARNING: Generated code contains syntax errors\n# Please review and fix the following code:\n\n"
        ++ normalizeCode code ++ "\n" := by
  unfold _validate_python_code warningBanner
  rw [h1, h2]
  simp

/-- Witness for the C6 theorem at a concrete input. -/
theorem c6_fallback_banner_witness :
    (fun _ => false : String → Bool) (normalizeCode "x=(") = false
    ∧ (fun _ => false : String → Bool) (fixIndentation (normalizeCode "x=(")) = false
    ∧ _validate_python_code (fun _ => false) "x=(" =
      "#!/usr/bin/env python3\n# WARNING: Generated code contains syntax errors\n# Please review and fix the following code:\n\n"
        ++ normalizeCode "x=(" ++ "\n" :=
  ⟨rfl, rfl, c6_fallback_banner (fun _ => false) "x=(" rfl rfl⟩

/-- C7 counterexample: in the reply below the first tagged fence opens at
index 0 and the next generic closing fence after it starts at offset 1 of
the remainder, so the claim requires the trimmed text before that closing
fence, which is X; the code instead truncates the remainder at the second
tagged fence first and returns X followed by a backtick. -/
theorem c7_counterexample :
    findSub fencePy ("```pythonX````pythonY```" : String).data = some 0
    ∧ findSub fence (("```pythonX````pythonY```" : String).data.drop 9) = some 1
    ∧ pyStrip ⟨(("```pythonX````pythonY```" : String).data.drop 9).take 1⟩ = "X"
    ∧ _extract_code_from_response "```pythonX````pythonY```" = some "X`"
    ∧ ("X`" : String) ≠ "X" := by
  refine ⟨by decide, by decide, by decide, by decide, by decide⟩

/-- C7 (amended): extraction precedence.  If the reply contains a
language-tagged opening fence, extraction returns the text between the
first such fence and the next generic closing fence, trimmed, provided no
second tagged fence begins before that closing fence ends (without the
proviso the code first truncates at the second tagged fence); else, if
generic fence markers exist, it returns the text between the first pair,
trimmed; else the full reply trimmed — in particular a reply free of
fence markers is returned as the trimmed input unchanged.  The indices in
the hypotheses are first occurrences by findSub_first. -/
theorem c7_extraction_precedence (t : String) :
    (∀ i j, findSub fencePy t.data = some i →
      findSub fence (t.data.drop (i + fencePy.length)) = some j →
      (∀ k, findSub fencePy (t.data.drop (i + fencePy.length)) = some k →
        j + fence.length ≤ k) →
      _extract_code_from_response t =
        some ⟨stripL ((t.data.drop (i + fencePy.length)).take j)⟩)
    ∧ (∀ i j, pyContainsL fencePy t.data = false →
      findSub fence t.data = some i →
      findSub fence (t.data.drop (i + fence.length)) = some j →
      _extract_code_from_response t =
        some ⟨stripL ((t.data.drop (i + fence.length)).take j)⟩)
    ∧ (pyContainsL fence t.data = false →
      _extract_code_from_response t = some (pyStrip t)) := by
  refine ⟨?_, ?_, fun h => extract_no_fence h⟩
  · intro i j hi hj hk
    rw [extract_tagged hi]
    cases hsec : findSub fencePy (t.data.drop (i + fencePy.length)) with
    | none =>
      rw [splitGet0_of_none hsec, splitGet0_of_some hj]
    | some k =>
      have hjk := hk k hsec
      have h3 : fence.length = 3 := rfl
      rw [splitGet0_of_some hsec]
      have hfj : findSub fence ((t.data.drop (i + fencePy.length)).take k) = some j :=
        findSub_take (by decide) hj hjk
      rw [splitGet0_of_some hfj, List.take_take, Nat.min_eq_left (by omega)]
  · intro i j hnp hi hj
    rw [extract_generic hnp hi, splitGet0_of_some hj]

/-- Witness for the amended C7 theorem at a concrete input (a tagged block
with its closing fence at offset 10 of the remainder and no second tagged
fence). -/
theorem c7_extraction_precedence_witness :
    findSub fencePy ("```python\nprint(1)\n```" : String).data = some 0
    ∧ findSub fence (("```python\nprint(1)\n```" : String).data.drop (0 + fencePy.length)) = some 10
    ∧ _extract_code_from_response "```python\nprint(1)\n```" =
        some ⟨stripL ((("```python\nprint(1)\n```" : String).data.drop (0 + fencePy.length)).take 10)⟩ :=
  ⟨by decide, by decide,
   (c7_extraction_precedence "```python\nprint(1)\n```").1 0 10 (by decide) (by decide)
     (by
       intro k hk
       rw [show findSub fencePy (("```python\nprint(1)\n```" : String).data.drop (0 + fencePy.length))
             = none from by decide] at hk
       cases hk)⟩

/-- C8: whenever the first parse attempt fails, _validate_python_code
re-attempts parsing on the repaired text and returns it exactly when that
second attempt succeeds (falling back to the banner otherwise); the repair
rewrites each line consisting of maximal leading whitespace w followed by
the rest r into floor(length w / 4) * 4 spaces followed by r unchanged,
applied line by line over the newline split. -/
theorem c8_indent_repair (parses : String → Bool) (code : String)
    (h1 : parses (normalizeCode code) = false) :
    (_validate_python_code parses code =
      if parses (fixIndentation (normalizeCode code)) then fixIndentation (normalizeCode code)
      else warningBanner (normalizeCode code))
    ∧ (∀ w r : List Char, (∀ c ∈ w, isPySpace c = true) →
        (∀ c, r.head? = some c → isPySpace c = false) →
        fixLineL (w ++ r) = List.replicate (w.length / 4 * 4) ' ' ++ r)
    ∧ (∀ s : String, fixIndentation s = ⟨joinNl ((splitNl s.data).map fixLineL)⟩) := by
  refine ⟨?_, ?_, fun s => rfl⟩
  · unfold _validate_python_code
    rw [h1]
    simp
  · intro w r hw hr
    obtain ⟨ht, hd2⟩ := takeWhile_dropWhile_decomp hw hr
    unfold fixLineL
    rw [ht, hd2]
    cases w with
    | nil => simp
    | cons a w2 => simp

/-- Witness for the C8 theorem at a concrete input (five leading spaces
repair to four). -/
theorem c8_indent_repair_witness :
    (fun _ => false : String → Bool) (normalizeCode "if True:\n     x = 1") = false
    ∧ (_validate_python_code (fun _ => false) "if True:\n     x = 1" =
        if (fun _ => false : String → Bool) (fixIndentation (normalizeCode "if True:\n     x = 1"))
        then fixIndentation (normalizeCode "if True:\n     x = 1")
        else warningBanner (normalizeCode "if True:\n     x = 1"))
    ∧ fixLineL ("     ".data ++ "x = 1".data) =
        List.replicate ("     ".data.length / 4 * 4) ' ' ++ "x = 1".data :=
  ⟨rfl,
   (c8_indent_repair (fun _ => false) "if True:\n     x = 1" rfl).1,
   (c8_indent_repair (fun _ => false) "if True:\n     x = 1" rfl).2.1 "     ".data "x = 1".data
     (by decide) (by decide)⟩

/-- C9: when the input path does not resolve, read_meeting_notes raises
the distinct notes-not-found error (a different constructor from the
generic read-failure wrapper used for any other fault), and the pipeline
returns 1 and performs no output write. -/
theorem c9_notes_not_found (args : Args) (env : Env) (fs : String → ReadResult)
    (call : Except String (Option Dict)) (now ts : String) (saveOk : Bool)
    (hmiss : fs args.input_file = .notFound) :
    read_meeting_notes fs args.input_file =
      .error (.fileNotFound ("Meeting notes file not found: " ++ args.input_file))
    ∧ (main_run args env fs call now ts saveOk).2 = []
    ∧ (main_run args env fs call now ts saveOk).1 = 1
    ∧ (∀ (p m : String), fs p = .ioError m →
        read_meeting_notes fs p = .error (.readFailure ("Error reading meeting notes: " ++ m)))
    ∧ (∀ m1 m2 : String, NotesError.fileNotFound m1 ≠ NotesError.readFailure m2) := by
  have hread : read_meeting_notes fs args.input_file =
      .error (.fileNotFound ("Meeting notes file not found: " ++ args.input_file)) := by
    unfold read_meeting_notes
    rw [hmiss]
  have hmain : main_run args env fs call now ts saveOk = (1, []) := by
    unfold main_run
    cases hini : initGenerator args.api_key env.bard_api_key with
    | error e => rfl
    | ok k => rw [hread]
  refine ⟨hread, by rw [hmain], by rw [hmain], ?_, ?_⟩
  · intro p m h
    unfold read_meeting_notes
    rw [h]
  · intro m1 m2 h
    cases h

/-- Witness for the C9 theorem at a concrete input. -/
theorem c9_notes_not_found_witness :
    (fun _ => ReadResult.notFound : String → ReadResult) "missing.txt" = .notFound
    ∧ (read_meeting_notes (fun _ => ReadResult.notFound) "missing.txt" =
        .error (.fileNotFound ("Meeting notes file not found: " ++ "missing.txt"))
      ∧ (main_run ⟨"missing.txt", none, some "key", "script"⟩ ⟨some "key", none⟩
          (fun _ => ReadResult.notFound) (.error "net") "N" "T" true).2 = []
      ∧ (main_run ⟨"missing.txt", none, some "key", "script"⟩ ⟨some "key", none⟩
          (fun _ => ReadResult.notFound) (.error "net") "N" "T" true).1 = 1
      ∧ (∀ (p m : String), (fun _ => ReadResult.notFound : String → ReadResult) p = .ioError m →
          read_meeting_notes (fun _ => ReadResult.notFound) p =
            .error (.readFailure ("Error reading meeting notes: " ++ m)))
      ∧ (∀ m1 m2 : String, NotesError.fileNotFound m1 ≠ NotesError.readFailure m2)) :=
  ⟨rfl,
   c9_notes_not_found ⟨"missing.txt", none, some "key", "script"⟩ ⟨some "key", none⟩
     (fun _ => ReadResult.notFound) (.error "net") "N" "T" true rfl⟩

/-- C10: extraction is total (never raises): the split elements it indexes
always exist.  When the reply has a tagged opening fence and the remainder
after it has no generic fence marker, the result is the trimmed remainder
to the end of the string; likewise for a generic opening fence with no
later marker. -/
theorem c10_unterminated_fence :
    (∀ t : String, (_extract_code_from_response t).isSome = true)
    ∧ (∀ (t : String) (i : Nat),
        findSub fencePy t.data = some i →
        findSub fence (t.data.drop (i + fencePy.length)) = none →
        _extract_code_from_response t = some ⟨stripL (t.data.drop (i + fencePy.length))⟩)
    ∧ (∀ (t : String) (i : Nat),
        pyContainsL fencePy t.data = false →
        findSub fence t.data = some i →
        findSub fence (t.data.drop (i + fence.length)) = none →
        _extract_code_from_response t = some ⟨stripL (t.data.drop (i + fence.length))⟩) := by
  refine ⟨extract_total, ?_, ?_⟩
  · intro t i hi hnone
    rw [extract_tagged hi]
    have hpnone : findSub fencePy (t.data.drop (i + fencePy.length)) = none := by
      have h3 := findSub_extend_none (t := "python".data) hnone
      rwa [show fence ++ "python".data = fencePy from by decide] at h3
    rw [splitGet0_of_none hpnone, splitGet0_of_none hnone]
  · intro t i hnp hi hnone
    rw [extract_generic hnp hi, splitGet0_of_none hnone]

/-- Witness for the C10 theorem at concrete inputs (a tagged fence and a
generic fence, both unterminated). -/
theorem c10_unterminated_fence_witness :
    findSub fencePy ("```python\nfoo" : String).data = some 0
    ∧ findSub fence (("```python\nfoo" : String).data.drop (0 + fencePy.length)) = none
    ∧ _extract_code_from_response "```python\nfoo" =
        some ⟨stripL (("```python\nfoo" : String).data.drop (0 + fencePy.length))⟩
    ∧ pyContainsL fencePy ("a```b" : String).data = false
    ∧ findSub fence ("a```b" : String).data = some 1
    ∧ findSub fence (("a```b" : String).data.drop (1 + fence.length)) = none
    ∧ _extract_code_from_response "a```b" =
        some ⟨stripL (("a```b" : String).data.drop (1 + fence.length))⟩ :=
  ⟨by decide, by decide,
   c10_unterminated_fence.2.1 "```python\nfoo" 0 (by decide) (by decide),
   by decide, by decide, by decide,
   c10_unterminated_fence.2.2 "a```b" 1 (by decide) (by decide) (by decide)⟩
